import Mathlib

/-!
Verification of the weekly photo organizer's collage core.

The Python source (`collage_utils.py`, `main.py`) is embedded shallowly:

* the pure crop geometry of `process_image_for_slot` over exact rationals,
* the slot layout of `generate_collage` over natural numbers,
* the control-flow skeleton of `generate_collage` (decode order, the
  `except` fallback, output writing) over an abstract decode oracle,
* the transform-bridge conversions `calculate_pan` (pan initialization)
  and `save_collage_edits` (commit conversion).
-/

namespace WPO

/-! ## Crop solver (`collage_utils.process_image_for_slot`, lines 39-120) -/

/-- A crop rectangle `(left, top, right, bottom)` in source-image pixel
coordinates, real-valued, possibly outside the image bounds. -/
structure CropRect where
  left : ℚ
  top : ℚ
  right : ℚ
  bottom : ℚ
  deriving DecidableEq, Repr

/-- `base_visible_w` of the source: the width of the "cover" region at
`zoom = 1` (`img_h * target_aspect` if the source is wider than the target,
else the full `img_w`). -/
def baseVisibleW (img_w img_h target_w target_h : ℚ) : ℚ :=
  if img_w / img_h > target_w / target_h then img_h * (target_w / target_h)
  else img_w

/-- `base_visible_h` of the source: the height of the "cover" region at
`zoom = 1` (the full `img_h` if the source is wider than the target, else
`img_w / target_aspect`). -/
def baseVisibleH (img_w img_h target_w target_h : ℚ) : ℚ :=
  if img_w / img_h > target_w / target_h then img_h
  else img_w / (target_w / target_h)

/-- `visible_w = base_visible_w / zoom` from the source. -/
def visibleW (img_w img_h target_w target_h zoom : ℚ) : ℚ :=
  baseVisibleW img_w img_h target_w target_h / zoom

/-- `visible_h = base_visible_h / zoom` from the source. -/
def visibleH (img_w img_h target_w target_h zoom : ℚ) : ℚ :=
  baseVisibleH img_w img_h target_w target_h / zoom

/-- The clamping of one axis, transcribed statement-for-statement from source
lines 99-106 (x axis) which are repeated verbatim for y at lines 108-114:
two sequential `if`s when the visible extent fits inside the image, symmetric
re-centering when it exceeds it. `lo`/`hi` are the unclamped `left`/`right`
(resp. `top`/`bottom`), `dim` the image extent on that axis. -/
def clampAxis (dim visible lo hi : ℚ) : ℚ × ℚ :=
  if visible ≤ dim then
    let p1 : ℚ × ℚ := if lo < 0 then (0, visible) else (lo, hi)
    if p1.2 > dim then (dim - visible, dim) else p1
  else
    let offset := (visible - dim) / 2
    (-offset, dim + offset)

/-- The crop rectangle before the clamping step: centered at
`(img_w * cx, img_h * cy)` with size `(visible_w, visible_h)`
(source lines 83-89). -/
def unclampedRect (img_w img_h target_w target_h cx cy zoom : ℚ) : CropRect :=
  let visible_w := visibleW img_w img_h target_w target_h zoom
  let visible_h := visibleH img_w img_h target_w target_h zoom
  let center_x_px := img_w * cx
  let center_y_px := img_h * cy
  let left := center_x_px - visible_w / 2
  let top := center_y_px - visible_h / 2
  ⟨left, top, left + visible_w, top + visible_h⟩

/-- The crop rectangle computed by `process_image_for_slot`: the unclamped
rect of lines 83-89 followed by the per-axis clamping of lines 99-114. -/
def process_image_for_slot (img_w img_h target_w target_h cx cy zoom : ℚ) :
    CropRect :=
  let visible_w := visibleW img_w img_h target_w target_h zoom
  let visible_h := visibleH img_w img_h target_w target_h zoom
  let u := unclampedRect img_w img_h target_w target_h cx cy zoom
  let lr := clampAxis img_w visible_w u.left u.right
  let tb := clampAxis img_h visible_h u.top u.bottom
  ⟨lr.1, tb.1, lr.2, tb.2⟩

/-- Modelled from the spec, section 4.2, step 5: the reference clamping of one
axis, written from the spec's words (shift toward 0 if `left < 0`, toward
`dim` if `right > dim`, never shrink; re-center symmetrically when the
visible extent exceeds the image). Used only for comparison. -/
def specClampAxis (dim visible lo hi : ℚ) : ℚ × ℚ :=
  if visible ≤ dim then
    if lo < 0 then (0, visible)
    else if hi > dim then (dim - visible, dim)
    else (lo, hi)
  else
    (-((visible - dim) / 2), dim + (visible - dim) / 2)

/-- Modelled from the spec, section 4.2: the reference crop algorithm, written
from the spec's own words (base region by aspect comparison, divided by zoom,
centered at `(img_w*cx, img_h*cy)`, then clamped per axis). Used only to
compare against `process_image_for_slot`. -/
def specCropRect (img_w img_h target_w target_h cx cy zoom : ℚ) : CropRect :=
  let target_aspect := target_w / target_h
  let img_aspect := img_w / img_h
  let base_w := if img_aspect > target_aspect then img_h * target_aspect else img_w
  let base_h := if img_aspect > target_aspect then img_h else img_w / target_aspect
  let visible_w := base_w / zoom
  let visible_h := base_h / zoom
  let center_x_px := img_w * cx
  let center_y_px := img_h * cy
  let lr := specClampAxis img_w visible_w
    (center_x_px - visible_w / 2) (center_x_px + visible_w / 2)
  let tb := specClampAxis img_h visible_h
    (center_y_px - visible_h / 2) (center_y_px + visible_h / 2)
  ⟨lr.1, tb.1, lr.2, tb.2⟩

/-- The code's sequential two-`if` clamp agrees with the spec's else-if
clamp: when the first `if` fires it sets the upper edge to `visible ≤ dim`,
so the second `if` cannot also fire. -/
theorem clampAxis_eq_spec (dim visible lo hi : ℚ) :
    clampAxis dim visible lo hi = specClampAxis dim visible lo hi := by
  unfold clampAxis specClampAxis
  split_ifs <;> simp_all

/-- C1: for positive image size, positive target size and positive zoom, the
crop rectangle computed by `process_image_for_slot` equals the reference
algorithm of spec section 4.2. -/
theorem process_image_matches_spec (img_w img_h target_w target_h cx cy zoom : ℚ)
    (hiw : 0 < img_w) (hih : 0 < img_h)
    (htw : 0 < target_w) (hth : 0 < target_h) (hz : 0 < zoom) :
    process_image_for_slot img_w img_h target_w target_h cx cy zoom =
      specCropRect img_w img_h target_w target_h cx cy zoom := by
  unfold process_image_for_slot specCropRect unclampedRect
  simp only [clampAxis_eq_spec]
  have hw : img_w * cx - visibleW img_w img_h target_w target_h zoom / 2 +
      visibleW img_w img_h target_w target_h zoom =
      img_w * cx + visibleW img_w img_h target_w target_h zoom / 2 := by ring
  have hh : img_h * cy - visibleH img_w img_h target_w target_h zoom / 2 +
      visibleH img_w img_h target_w target_h zoom =
      img_h * cy + visibleH img_w img_h target_w target_h zoom / 2 := by ring
  simp only [visibleW, visibleH, baseVisibleW, baseVisibleH] at hw hh ⊢
  rw [hw, hh]

/-- Closed witness for C1 at a concrete input. -/
theorem process_image_matches_spec_witness :
    process_image_for_slot 1000 800 400 300 (3/4) (1/4) 2 =
      specCropRect 1000 800 400 300 (3/4) (1/4) 2 :=
  process_image_matches_spec 1000 800 400 300 (3/4) (1/4) 2
    (by norm_num) (by norm_num) (by norm_num) (by norm_num) (by norm_num)

/-- Clamping never changes the size of the rectangle on an axis: whenever the
unclamped edges satisfy `hi = lo + visible`, the clamped edges are `visible`
apart as well. -/
theorem clampAxis_size (dim visible lo : ℚ) :
    (clampAxis dim visible lo (lo + visible)).2 -
      (clampAxis dim visible lo (lo + visible)).1 = visible := by
  unfold clampAxis
  by_cases h1 : visible ≤ dim
  · by_cases h2 : lo < 0
    · have h3 : ¬ (visible > dim) := not_lt.mpr h1
      simp [h1, h2, h3]
    · by_cases h3 : lo + visible > dim
      · simp [h1, h2, h3]
      · simp [h1, h2, h3]
  · simp only [if_neg h1]
    ring

/-- When the visible extent fits inside the image, the clamped axis interval
lies within `[0, dim]`, whatever the requested center was. -/
theorem clampAxis_mem (dim visible lo hi : ℚ) (h : visible ≤ dim) :
    0 ≤ (clampAxis dim visible lo hi).1 ∧ (clampAxis dim visible lo hi).2 ≤ dim := by
  unfold clampAxis
  by_cases h2 : lo < 0
  · have h3 : ¬ (visible > dim) := not_lt.mpr h
    simp [h, h2, h3]
  · push_neg at h2
    by_cases h3 : hi > dim
    · simp only [if_pos h, if_neg (not_lt.mpr h2), if_pos h3]
      constructor <;> simp <;> linarith
    · push_neg at h3
      simp only [if_pos h, if_neg (not_lt.mpr h2), if_neg (not_lt.mpr h3)]
      exact ⟨h2, h3⟩

/-- The crop rectangle of `process_image_for_slot` has width `visible_w` and
height `visible_h`: the clamp step shifts but never shrinks. -/
theorem process_image_size (img_w img_h target_w target_h cx cy zoom : ℚ) :
    (process_image_for_slot img_w img_h target_w target_h cx cy zoom).right -
        (process_image_for_slot img_w img_h target_w target_h cx cy zoom).left =
      visibleW img_w img_h target_w target_h zoom ∧
    (process_image_for_slot img_w img_h target_w target_h cx cy zoom).bottom -
        (process_image_for_slot img_w img_h target_w target_h cx cy zoom).top =
      visibleH img_w img_h target_w target_h zoom := by
  unfold process_image_for_slot unclampedRect
  exact ⟨clampAxis_size _ _ _, clampAxis_size _ _ _⟩

/-- The base cover region has exactly the target aspect ratio. -/
theorem baseVisible_aspect (img_w img_h target_w target_h : ℚ)
    (htw : 0 < target_w) (hth : 0 < target_h) :
    baseVisibleW img_w img_h target_w target_h * target_h =
      baseVisibleH img_w img_h target_w target_h * target_w := by
  unfold baseVisibleW baseVisibleH
  split_ifs <;> field_simp <;> ring

/-- The base cover width never exceeds the image width. -/
theorem baseVisibleW_le (img_w img_h target_w target_h : ℚ)
    (hiw : 0 < img_w) (hih : 0 < img_h) (htw : 0 < target_w) (hth : 0 < target_h) :
    baseVisibleW img_w img_h target_w target_h ≤ img_w := by
  unfold baseVisibleW
  split_ifs with h
  · have h2 : target_w * img_h < img_w * target_h := (div_lt_div_iff hth hih).mp h
    rw [← mul_div_assoc, div_le_iff hth]
    linarith
  · exact le_refl img_w

/-- The base cover height never exceeds the image height. -/
theorem baseVisibleH_le (img_w img_h target_w target_h : ℚ)
    (hiw : 0 < img_w) (hih : 0 < img_h) (htw : 0 < target_w) (hth : 0 < target_h) :
    baseVisibleH img_w img_h target_w target_h ≤ img_h := by
  unfold baseVisibleH
  split_ifs with h
  · exact le_refl img_h
  · push_neg at h
    have h2 : img_w * target_h ≤ target_w * img_h := (div_le_div_iff hih hth).mp h
    rw [div_div_eq_mul_div, div_le_iff htw]
    linarith

/-- The base cover width is positive for positive inputs. -/
theorem baseVisibleW_pos (img_w img_h target_w target_h : ℚ)
    (hiw : 0 < img_w) (hih : 0 < img_h) (htw : 0 < target_w) (hth : 0 < target_h) :
    0 < baseVisibleW img_w img_h target_w target_h := by
  unfold baseVisibleW
  split_ifs
  · positivity
  · exact hiw

/-- The base cover height is positive for positive inputs. -/
theorem baseVisibleH_pos (img_w img_h target_w target_h : ℚ)
    (hiw : 0 < img_w) (hih : 0 < img_h) (htw : 0 < target_w) (hth : 0 < target_h) :
    0 < baseVisibleH img_w img_h target_w target_h := by
  unfold baseVisibleH
  split_ifs
  · exact hih
  · positivity

/-- C6: the crop rectangle keeps exactly the target aspect ratio
(`(right-left) * target_h = (bottom-top) * target_w`, exact in ℚ, hence
within any floating-point tolerance); and at `zoom = 1`, `cx = cy = 1/2`
it lies inside `[0, img_w] × [0, img_h]`. -/
theorem process_image_aspect_and_bounds (img_w img_h target_w target_h cx cy zoom : ℚ)
    (hiw : 0 < img_w) (hih : 0 < img_h)
    (htw : 0 < target_w) (hth : 0 < target_h)
    (hz1 : 1/10 ≤ zoom) (hz2 : zoom ≤ 5) :
    ((process_image_for_slot img_w img_h target_w target_h cx cy zoom).right -
        (process_image_for_slot img_w img_h target_w target_h cx cy zoom).left) *
        target_h =
      ((process_image_for_slot img_w img_h target_w target_h cx cy zoom).bottom -
        (process_image_for_slot img_w img_h target_w target_h cx cy zoom).top) *
        target_w ∧
    (zoom = 1 →
      0 ≤ (process_image_for_slot img_w img_h target_w target_h cx cy zoom).left ∧
      0 ≤ (process_image_for_slot img_w img_h target_w target_h cx cy zoom).top ∧
      (process_image_for_slot img_w img_h target_w target_h cx cy zoom).right ≤ img_w ∧
      (process_image_for_slot img_w img_h target_w target_h cx cy zoom).bottom ≤ img_h) := by
  obtain ⟨hwid, hhei⟩ := process_image_size img_w img_h target_w target_h cx cy zoom
  constructor
  · rw [hwid, hhei]
    unfold visibleW visibleH
    rw [div_mul_eq_mul_div, div_mul_eq_mul_div,
      baseVisible_aspect img_w img_h target_w target_h htw hth]
  · intro hz
    have hvw : visibleW img_w img_h target_w target_h zoom ≤ img_w := by
      unfold visibleW
      rw [hz, div_one]
      exact baseVisibleW_le img_w img_h target_w target_h hiw hih htw hth
    have hvh : visibleH img_w img_h target_w target_h zoom ≤ img_h := by
      unfold visibleH
      rw [hz, div_one]
      exact baseVisibleH_le img_w img_h target_w target_h hiw hih htw hth
    have hx := clampAxis_mem img_w (visibleW img_w img_h target_w target_h zoom)
      (unclampedRect img_w img_h target_w target_h cx cy zoom).left
      (unclampedRect img_w img_h target_w target_h cx cy zoom).right hvw
    have hy := clampAxis_mem img_h (visibleH img_w img_h target_w target_h zoom)
      (unclampedRect img_w img_h target_w target_h cx cy zoom).top
      (unclampedRect img_w img_h target_w target_h cx cy zoom).bottom hvh
    unfold process_image_for_slot
    exact ⟨hx.1, hy.1, hx.2, hy.2⟩

/-- Closed witness for C6 at a concrete input. -/
theorem process_image_aspect_and_bounds_witness :
    ((process_image_for_slot 1000 800 400 300 (1/2) (1/2) 1).right -
        (process_image_for_slot 1000 800 400 300 (1/2) (1/2) 1).left) * 300 =
      ((process_image_for_slot 1000 800 400 300 (1/2) (1/2) 1).bottom -
        (process_image_for_slot 1000 800 400 300 (1/2) (1/2) 1).top) * 400 ∧
    ((1 : ℚ) = 1 →
      0 ≤ (process_image_for_slot 1000 800 400 300 (1/2) (1/2) 1).left ∧
      0 ≤ (process_image_for_slot 1000 800 400 300 (1/2) (1/2) 1).top ∧
      (process_image_for_slot 1000 800 400 300 (1/2) (1/2) 1).right ≤ 1000 ∧
      (process_image_for_slot 1000 800 400 300 (1/2) (1/2) 1).bottom ≤ 800) :=
  process_image_aspect_and_bounds 1000 800 400 300 (1/2) (1/2) 1
    (by norm_num) (by norm_num) (by norm_num) (by norm_num) (by norm_num) (by norm_num)

/-- C7: for fixed positive sizes and fixed center, the crop width and height
are strictly decreasing in `zoom` across the valid range `[0.1, 5]`. -/
theorem process_image_zoom_strict_mono (img_w img_h target_w target_h cx cy z1 z2 : ℚ)
    (hiw : 0 < img_w) (hih : 0 < img_h)
    (htw : 0 < target_w) (hth : 0 < target_h)
    (hz1 : 1/10 ≤ z1) (h12 : z1 < z2) (hz2 : z2 ≤ 5) :
    (process_image_for_slot img_w img_h target_w target_h cx cy z2).right -
        (process_image_for_slot img_w img_h target_w target_h cx cy z2).left <
      (process_image_for_slot img_w img_h target_w target_h cx cy z1).right -
        (process_image_for_slot img_w img_h target_w target_h cx cy z1).left ∧
    (process_image_for_slot img_w img_h target_w target_h cx cy z2).bottom -
        (process_image_for_slot img_w img_h target_w target_h cx cy z2).top <
      (process_image_for_slot img_w img_h target_w target_h cx cy z1).bottom -
        (process_image_for_slot img_w img_h target_w target_h cx cy z1).top := by
  obtain ⟨hw1, hh1⟩ := process_image_size img_w img_h target_w target_h cx cy z1
  obtain ⟨hw2, hh2⟩ := process_image_size img_w img_h target_w target_h cx cy z2
  rw [hw1, hw2, hh1, hh2]
  unfold visibleW visibleH
  have hz1pos : 0 < z1 := by linarith
  constructor
  · exact div_lt_div_of_pos_left
      (baseVisibleW_pos img_w img_h target_w target_h hiw hih htw hth) hz1pos h12
  · exact div_lt_div_of_pos_left
      (baseVisibleH_pos img_w img_h target_w target_h hiw hih htw hth) hz1pos h12

/-- Closed witness for C7 at a concrete input. -/
theorem process_image_zoom_strict_mono_witness :
    (process_image_for_slot 1000 800 400 300 (1/2) (1/2) 3).right -
        (process_image_for_slot 1000 800 400 300 (1/2) (1/2) 3).left <
      (process_image_for_slot 1000 800 400 300 (1/2) (1/2) 2).right -
        (process_image_for_slot 1000 800 400 300 (1/2) (1/2) 2).left ∧
    (process_image_for_slot 1000 800 400 300 (1/2) (1/2) 3).bottom -
        (process_image_for_slot 1000 800 400 300 (1/2) (1/2) 3).top <
      (process_image_for_slot 1000 800 400 300 (1/2) (1/2) 2).bottom -
        (process_image_for_slot 1000 800 400 300 (1/2) (1/2) 2).top :=
  process_image_zoom_strict_mono 1000 800 400 300 (1/2) (1/2) 2 3
    (by norm_num) (by norm_num) (by norm_num) (by norm_num) (by norm_num)
    (by norm_num) (by norm_num)

/-! ## Transform bridge (`main.py`: `calculate_pan` lines 522-545,
`save_collage_edits` lines 690-744) -/

/-- The pan initialization of `calculate_pan`: `t = (0.5 - c) * dim` in
full-resolution pixels (no preview-scale factor is applied). -/
def calculate_pan_t (c dim : ℚ) : ℚ := (1/2 - c) * dim

/-- The commit conversion of `save_collage_edits`: `real_t = t * 2.0`
(preview scale 0.5), then `c = 0.5 - real_t / dim`. -/
def save_commit_c (t dim : ℚ) : ℚ := 1/2 - t * 2 / dim

/-- C4 failing input: committing the untouched pan produced by
`calculate_pan` for `center_x = 0.6` on a 1000-pixel-wide image yields
`center_x = 0.7`, not `0.6`: the pan initialization omits the preview scale
factor `k = 0.5` that the commit conversion divides by, so an open/commit
cycle with no user input drifts the center away from `0.5`. -/
theorem pan_commit_roundtrip_drifts :
    save_commit_c (calculate_pan_t (6/10) 1000) 1000 = 7/10 ∧
    (7/10 : ℚ) ≠ 6/10 := by
  constructor
  · norm_num [save_commit_c, calculate_pan_t]
  · norm_num

/-- C5: the commit conversion equals `0.5 - (t / k) / dim` with `k = 1/2`,
and the crop rectangle's center before clamping is exactly
`(img_w * cx, img_h * cy)` — in particular within 1 pixel. -/
theorem commit_center_exact (tx ty img_w img_h target_w target_h zoom : ℚ)
    (hiw : 0 < img_w) (hih : 0 < img_h) :
    save_commit_c tx img_w = 1/2 - tx / (1/2) / img_w ∧
    save_commit_c ty img_h = 1/2 - ty / (1/2) / img_h ∧
    ((unclampedRect img_w img_h target_w target_h
          (save_commit_c tx img_w) (save_commit_c ty img_h) zoom).left +
        (unclampedRect img_w img_h target_w target_h
          (save_commit_c tx img_w) (save_commit_c ty img_h) zoom).right) / 2 =
      img_w * save_commit_c tx img_w ∧
    ((unclampedRect img_w img_h target_w target_h
          (save_commit_c tx img_w) (save_commit_c ty img_h) zoom).top +
        (unclampedRect img_w img_h target_w target_h
          (save_commit_c tx img_w) (save_commit_c ty img_h) zoom).bottom) / 2 =
      img_h * save_commit_c ty img_h ∧
    |((unclampedRect img_w img_h target_w target_h
          (save_commit_c tx img_w) (save_commit_c ty img_h) zoom).left +
        (unclampedRect img_w img_h target_w target_h
          (save_commit_c tx img_w) (save_commit_c ty img_h) zoom).right) / 2 -
      img_w * save_commit_c tx img_w| ≤ 1 := by
  refine ⟨by unfold save_commit_c; ring, by unfold save_commit_c; ring, ?_, ?_, ?_⟩
  · unfold unclampedRect
    ring
  · unfold unclampedRect
    ring
  · have h : ((unclampedRect img_w img_h target_w target_h
          (save_commit_c tx img_w) (save_commit_c ty img_h) zoom).left +
        (unclampedRect img_w img_h target_w target_h
          (save_commit_c tx img_w) (save_commit_c ty img_h) zoom).right) / 2 -
        img_w * save_commit_c tx img_w = 0 := by
      unfold unclampedRect
      ring
    rw [h, abs_zero]
    norm_num

/-- Closed witness for C5 at a concrete input. -/
theorem commit_center_exact_witness :
    save_commit_c 100 1000 = 1/2 - (100 : ℚ) / (1/2) / 1000 ∧
    save_commit_c (-50) 800 = 1/2 - (-50 : ℚ) / (1/2) / 800 ∧
    ((unclampedRect 1000 800 400 300
          (save_commit_c 100 1000) (save_commit_c (-50) 800) 2).left +
        (unclampedRect 1000 800 400 300
          (save_commit_c 100 1000) (save_commit_c (-50) 800) 2).right) / 2 =
      1000 * save_commit_c 100 1000 ∧
    ((unclampedRect 1000 800 400 300
          (save_commit_c 100 1000) (save_commit_c (-50) 800) 2).top +
        (unclampedRect 1000 800 400 300
          (save_commit_c 100 1000) (save_commit_c (-50) 800) 2).bottom) / 2 =
      800 * save_commit_c (-50) 800 ∧
    |((unclampedRect 1000 800 400 300
          (save_commit_c 100 1000) (save_commit_c (-50) 800) 2).left +
        (unclampedRect 1000 800 400 300
          (save_commit_c 100 1000) (save_commit_c (-50) 800) 2).right) / 2 -
      1000 * save_commit_c 100 1000| ≤ 1 :=
  commit_center_exact 100 (-50) 1000 800 400 300 2 (by norm_num) (by norm_num)

/-! ## Layout resolver (`collage_utils.generate_collage`, lines 122-179) -/

/-- A slot rectangle `(x, y, w, h)` on the 1600×1200 canvas. -/
structure Slot where
  x : ℕ
  y : ℕ
  w : ℕ
  h : ℕ
  deriving DecidableEq, Repr

/-- The slot rectangles produced by the layout branches of `generate_collage`
(`qty == 2` / `qty == 3` / `qty >= 4` / else), with the source's integer
division `//`. Natural subtraction agrees with Python for `spacing ≤ 1600`,
which the positivity precondition on slot sizes guarantees. -/
def getSlots (qty spacing : ℕ) : List Slot :=
  if qty = 2 then
    let w_slot := (1600 - spacing) / 2
    [⟨0, 0, w_slot, 1200⟩, ⟨w_slot + spacing, 0, w_slot, 1200⟩]
  else if qty = 3 then
    let w_left := (1600 - spacing) / 2
    let x_right := w_left + spacing
    let w_right := 1600 - x_right
    let h_top := (1200 - spacing) / 2
    let h_bot := 1200 - spacing - h_top
    [⟨0, 0, w_left, 1200⟩, ⟨x_right, 0, w_right, h_top⟩,
      ⟨x_right, h_top + spacing, w_right, h_bot⟩]
  else if qty ≥ 4 then
    let w_half := (1600 - spacing) / 2
    let h_half := (1200 - spacing) / 2
    [⟨0, 0, w_half, h_half⟩, ⟨w_half + spacing, 0, w_half, h_half⟩,
      ⟨0, h_half + spacing, w_half, h_half⟩,
      ⟨w_half + spacing, h_half + spacing, w_half, h_half⟩]
  else
    [⟨0, 0, 1600, 1200⟩]

/-- Two slots do not overlap (they are separated on the x or the y axis). -/
def slotDisjoint (a b : Slot) : Prop :=
  a.x + a.w ≤ b.x ∨ b.x + b.w ≤ a.x ∨ a.y + a.h ≤ b.y ∨ b.y + b.h ≤ a.y

/-- Pixel `(px, py)` lies inside slot `s`. -/
def inSlot (s : Slot) (px py : ℕ) : Prop :=
  s.x ≤ px ∧ px < s.x + s.w ∧ s.y ≤ py ∧ py < s.y + s.h

/-- The slots together with the spacing gaps exactly tile the 1600×1200
canvas: every slot stays inside the canvas, every canvas pixel is in a slot
or in a spacing band directly after a slot edge, and some slot reaches the
right edge and some slot reaches the bottom edge (no uncovered pixel column
or row at any edge). -/
def slotsTile (slots : List Slot) (spacing : ℕ) : Prop :=
  (∀ s ∈ slots, s.x + s.w ≤ 1600 ∧ s.y + s.h ≤ 1200) ∧
  (∀ px py, px < 1600 → py < 1200 →
    (∃ s ∈ slots, inSlot s px py) ∨
    (∃ s ∈ slots, s.x + s.w ≤ px ∧ px < s.x + s.w + spacing) ∨
    (∃ s ∈ slots, s.y + s.h ≤ py ∧ py < s.y + s.h + spacing)) ∧
  (∃ s ∈ slots, s.x + s.w = 1600) ∧
  (∃ s ∈ slots, s.y + s.h = 1200)

/-- C3 counterexample: for `count = 2`, `spacing = 1` every slot size is
positive, yet the layout does not tile the canvas — both slots end at
column 799 resp. 1599, so pixel column 1599 at the right edge is uncovered
(`2 * ((1600 - 1) // 2) + 1 = 1599 < 1600`). -/
theorem layout_tiling_fails_odd_spacing :
    (∀ s ∈ getSlots 2 1, 0 < s.w ∧ 0 < s.h) ∧ ¬ slotsTile (getSlots 2 1) 1 := by
  constructor
  · decide
  · intro h
    exact absurd h.2.2.1 (by decide)

/-- C3 (amended): for every count in `{1,2,3,4}` and every `spacing ≥ 0`
that leaves all slot sizes positive — even spacing when the count is 2 or 4;
counts 1 and 3 need no parity restriction since count 1 ignores spacing and
count 3 absorbs the integer-division remainder into `w_right` and `h_bot` —
the slots are pairwise non-overlapping and together with the spacing gaps
exactly tile the 1600×1200 canvas. -/
theorem layout_disjoint_and_tiles (qty spacing : ℕ)
    (hq : qty = 1 ∨ qty = 2 ∨ qty = 3 ∨ qty = 4)
    (hsp : qty = 2 ∨ qty = 4 → spacing % 2 = 0)
    (hpos : ∀ s ∈ getSlots qty spacing, 0 < s.w ∧ 0 < s.h) :
    List.Pairwise slotDisjoint (getSlots qty spacing) ∧
      slotsTile (getSlots qty spacing) spacing := by
  unfold slotsTile
  rcases hq with rfl | rfl | rfl | rfl
  · refine ⟨by simp [getSlots], ?_, ?_, ?_, ?_⟩
    · simp [getSlots]
    · intro px py hx hy
      simp only [getSlots]
      norm_num [inSlot]
      omega
    · simp [getSlots]
    · simp [getSlots]
  · have hev : spacing % 2 = 0 := hsp (Or.inl rfl)
    have hb := hpos ⟨0, 0, (1600 - spacing) / 2, 1200⟩ (by simp [getSlots])
    have hsb : spacing ≤ 1598 := by
      rcases hb with ⟨hb1, _⟩
      simp only at hb1
      omega
    refine ⟨?_, ?_, ?_, ?_, ?_⟩
    · simp only [getSlots]
      norm_num [List.pairwise_cons, slotDisjoint]
    · simp only [getSlots]
      norm_num [List.forall_mem_cons]
      omega
    · intro px py hx hy
      simp only [getSlots]
      norm_num [inSlot]
      omega
    · simp only [getSlots]
      norm_num
      omega
    · simp only [getSlots]
      norm_num
  · have hb := hpos ⟨0, 0, (1600 - spacing) / 2, 1200⟩ (by simp [getSlots])
    have hb2 := hpos ⟨(1600 - spacing) / 2 + spacing, 0,
      1600 - ((1600 - spacing) / 2 + spacing), (1200 - spacing) / 2⟩
      (by simp [getSlots])
    have hsb : spacing ≤ 1598 ∧ spacing ≤ 1198 ∧
        spacing ≤ 1600 - ((1600 - spacing) / 2 + spacing) + 1598 := by
      rcases hb with ⟨hb1, _⟩
      rcases hb2 with ⟨_, hb3⟩
      simp only at hb1 hb3
      omega
    refine ⟨?_, ?_, ?_, ?_, ?_⟩
    · simp only [getSlots]
      norm_num [List.pairwise_cons, slotDisjoint]
    · simp only [getSlots]
      norm_num [List.forall_mem_cons]
      omega
    · intro px py hx hy
      simp only [getSlots]
      norm_num [inSlot]
      omega
    · simp only [getSlots]
      norm_num
      omega
    · simp only [getSlots]
      norm_num
  · have hev : spacing % 2 = 0 := hsp (Or.inr rfl)
    have hb := hpos ⟨0, 0, (1600 - spacing) / 2, (1200 - spacing) / 2⟩
      (by simp [getSlots])
    have hsb : spacing ≤ 1598 ∧ spacing ≤ 1198 := by
      rcases hb with ⟨hb1, hb2⟩
      simp only at hb1 hb2
      omega
    refine ⟨?_, ?_, ?_, ?_, ?_⟩
    · simp only [getSlots]
      norm_num [List.pairwise_cons, slotDisjoint]
    · simp only [getSlots]
      norm_num [List.forall_mem_cons]
      omega
    · intro px py hx hy
      simp only [getSlots]
      norm_num [inSlot]
      omega
    · simp only [getSlots]
      norm_num
      omega
    · simp only [getSlots]
      norm_num
      omega

/-- Closed witness for the amended C3 at `count = 3` with the odd
`spacing = 21`, a case the parity restriction does not exclude. -/
theorem layout_disjoint_and_tiles_witness :
    List.Pairwise slotDisjoint (getSlots 3 21) ∧ slotsTile (getSlots 3 21) 21 :=
  layout_disjoint_and_tiles 3 21 (by norm_num) (by omega) (by decide)

/-- C8: for `count = 3`, `spacing = 20` the layout is exactly the left slot
`(0,0,790,1200)`, right-top `(810,0,790,590)` and right-bottom
`(810,610,790,590)`, and the two right rows sum to `1200 - 20`. -/
theorem layout_three_images_spacing20 :
    getSlots 3 20 =
      [⟨0, 0, 790, 1200⟩, ⟨810, 0, 790, 590⟩, ⟨810, 610, 790, 590⟩] ∧
    590 + 590 = 1200 - 20 := by
  decide

/-! ## Compositor skeleton (`collage_utils.generate_collage`, lines 17-196)

The decode/compose/save control flow over an abstract decode oracle
`decode : String → Option (ℕ × ℕ)` (`none` models an `Image.open` failure,
`some` returns the image size). Per slot, the only other raising operation
in the pure crop math is `base_visible / zoom` when `zoom = 0`
(Python `ZeroDivisionError`); both are caught by the single
`except Exception` at line 181, which prints and returns `image_paths[0]`.
On the success path the temp directory is created and the canvas saved. -/

/-- A slot configuration dict `{center_x, center_y, zoom}`. -/
structure GCConfig where
  center_x : ℚ
  center_y : ℚ
  zoom : ℚ
  deriving DecidableEq, Repr

/-- The default slot configuration `{0.5, 0.5, 1.0}`. -/
def defaultConfig : GCConfig := ⟨1/2, 1/2, 1⟩

/-- What `generate_collage` returns: `None`, the first original image path
(the `except` fallback of lines 181-185), or the composed collage file. -/
inductive GCResult where
  | noPath : GCResult
  | fallbackOriginal (p : String) : GCResult
  | collagePath : GCResult
  deriving DecidableEq, Repr

/-- The observable effects of one `generate_collage` call: the paths passed
to `Image.open` in order, whether the temp directory was created, whether an
output file was written, and the returned value. -/
structure GCTrace where
  openedPaths : List String
  madeTempDir : Bool
  wroteOutput : Bool
  result : GCResult
  deriving DecidableEq, Repr

/-- Process the slots in order, as the layout branches of lines 125-179 do:
open each image, fail on a decode error or on `zoom = 0` (the
`ZeroDivisionError` of line 74), stop at the first failure. Returns the
opened paths in order and whether every slot succeeded. -/
def processSlots (decode : String → Option (ℕ × ℕ)) :
    List (String × GCConfig) → List String × Bool
  | [] => ([], true)
  | (p, cfg) :: rest =>
    match decode p with
    | none => ([p], false)
    | some _ =>
      if cfg.zoom = 0 then ([p], false)
      else
        let r := processSlots decode rest
        (p :: r.1, r.2)

/-- The control-flow skeleton of `generate_collage`: empty input returns
`None` at once (line 18); otherwise the first four paths are processed in
order with configs padded by defaults (lines 24-33); any exception yields
`image_paths[0]` with nothing written (lines 181-185); on success the temp
dir is made and the collage saved (lines 187-196). -/
def generate_collage (image_paths : List String)
    (decode : String → Option (ℕ × ℕ)) (slot_configs : List GCConfig) :
    GCTrace :=
  if image_paths = [] then ⟨[], false, false, .noPath⟩
  else
    let process_paths := image_paths.take 4
    let qty := process_paths.length
    let configs := (slot_configs ++ List.replicate qty defaultConfig).take qty
    let r := processSlots decode (process_paths.zip configs)
    if r.2 then ⟨r.1, true, true, .collagePath⟩
    else ⟨r.1, false, false, .fallbackOriginal image_paths.headI⟩

/-- C2 failing input: in a two-image composite where the second image fails
to decode, `generate_collage` writes no output but returns the first —
unrelated — original image path as the result, instead of a typed failure
identifying `"b.jpg"`. -/
theorem generate_collage_silent_fallback :
    generate_collage ["a.jpg", "b.jpg"]
        (fun p => if p = "b.jpg" then none else some (1000, 800)) [] =
      ⟨["a.jpg", "b.jpg"], false, false, .fallbackOriginal "a.jpg"⟩ := by
  rfl

/-- C9 failing input: with `zoom = 0` — an invalid `SlotConfig` —
`generate_collage` still opens (decodes) the source image, then hits the
`ZeroDivisionError` and silently falls back to the original path: no typed
`InvalidSlotConfig` rejection happens before decoding, or at all. -/
theorem generate_collage_no_config_validation :
    generate_collage ["a.jpg"] (fun _ => some (800, 600)) [⟨1/2, 1/2, 0⟩] =
      ⟨["a.jpg"], false, false, .fallbackOriginal "a.jpg"⟩ ∧
    (generate_collage ["a.jpg"] (fun _ => some (800, 600))
        [⟨1/2, 1/2, 0⟩]).openedPaths ≠ [] := by
  constructor
  · rfl
  · intro h
    simp [generate_collage, processSlots] at h

/-- C10: for the empty input list, `generate_collage` returns `None` (a
typed absence, not an exception), opens no image, creates no temp directory
and writes no output — whatever the decode oracle and configs are. -/
theorem generate_collage_empty_input (decode : String → Option (ℕ × ℕ))
    (slot_configs : List GCConfig) :
    generate_collage [] decode slot_configs = ⟨[], false, false, .noPath⟩ := by
  rfl

end WPO

